import Mathlib

/-!
Verification of the TCO (tail-call optimization) demo repository.

The repository implements factorial four ways; the files embedded here are:

* `factorial_helper` / `factorial` — the manually tail-recursive version
  (`long long factorial_helper(int n, long long accumulator)`);
* `factorial_trampoline` — the explicit trampoline loop over a `State`
  struct holding `{int n; long long accumulator;}`;
* `factorial_trampoline_with_debug` — the trampoline with an observational
  debug stack of `DebugFrame {int n; long long accumulator; int depth;}`
  snapshots (from the README's `factorial_trampoline_debug.cpp` listing);
* `factorial_cps` — the continuation-passing variant, whose continuations
  are unary functions on the 64-bit result.

Embedding conventions: the C++ `int n` is modelled as `Int` (its wraparound
is never exercised: the code only decrements `n` towards 1); the 64-bit
accumulator (`long long`) is modelled by its bit pattern, a `Nat` reduced
modulo `WORD = 2 ^ 64` at every multiplication, which is the two's-complement
wraparound the spec documents as the intended numeric semantics.
-/

/-- The modulus of the 64-bit accumulator: every multiplication of the
`long long` accumulator wraps modulo `2 ^ 64`. -/
def WORD : Nat := 2 ^ 64

/-- The struct `State { int n; long long accumulator; };` from the trampoline
file. -/
structure State where
  n : Int
  accumulator : Nat
  deriving Repr, DecidableEq

/-- The helper `long long factorial_helper(int n, long long accumulator)`: if `n <= 1`
return the accumulator, else tail-call `factorial_helper(n - 1, accumulator * n)`.
The multiplication wraps modulo `2 ^ 64`. -/
def factorial_helper (n : Int) (accumulator : Nat) : Nat :=
  if n ≤ 1 then
    accumulator
  else
    factorial_helper (n - 1) (accumulator * n.toNat % WORD)
termination_by n.toNat
decreasing_by omega

/-- The entry point `long long factorial(int n) { return factorial_helper(n, 1); }` -/
def factorial (n : Int) : Nat :=
  factorial_helper n 1

/-- The body of `factorial_trampoline`'s `while (true)` loop, parameterised
by the current `State`: exit with the accumulator when `n <= 1`, otherwise
continue with `{n - 1, accumulator * n}`. -/
def trampolineLoop (s : State) : Nat :=
  if s.n ≤ 1 then
    s.accumulator
  else
    trampolineLoop { n := s.n - 1, accumulator := s.accumulator * s.n.toNat % WORD }
termination_by s.n.toNat
decreasing_by omega

/-- The function `long long factorial_trampoline(int n)`: seed `State current_state = {n, 1}`
and run the trampoline loop. -/
def factorial_trampoline (n : Int) : Nat :=
  trampolineLoop { n := n, accumulator := 1 }

/-- One iteration of the trampoline loop as a pure state-update function:
a terminal state (`n <= 1`) is left unchanged, otherwise the loop's single
transition `{n - 1, accumulator * n}` is applied.  `factorial_trampoline`
is exactly the iteration of this O(1) step (see `loop_eq_iterate`). -/
def step (s : State) : State :=
  if s.n ≤ 1 then
    s
  else
    { n := s.n - 1, accumulator := s.accumulator * s.n.toNat % WORD }

/-- The number of transition applications (loop iterations that do not exit)
the trampoline performs from countdown value `n`. -/
def trampolineSteps (n : Int) : Nat :=
  if n ≤ 1 then
    0
  else
    trampolineSteps (n - 1) + 1
termination_by n.toNat
decreasing_by omega

/-- The struct `DebugFrame { int n; long long accumulator; int depth; };` from the
README's debug-trace trampoline. -/
structure DebugFrame where
  n : Int
  accumulator : Nat
  depth : Nat
  deriving Repr, DecidableEq

/-- The `while (true)` loop of `factorial_trampoline_with_debug`: every
iteration first pushes `{current_n, current_acc, debug_stack.size()}` onto the
debug stack, then either exits with the accumulator (`n <= 1`) or applies the
same transition as the plain trampoline.  Returns the result together with the
final debug stack. -/
def debugLoop (n : Int) (acc : Nat) (debug_stack : List DebugFrame) :
    Nat × List DebugFrame :=
  let stack' := debug_stack ++ [{ n := n, accumulator := acc, depth := debug_stack.length }]
  if n ≤ 1 then
    (acc, stack')
  else
    debugLoop (n - 1) (acc * n.toNat % WORD) stack'
termination_by n.toNat
decreasing_by omega

/-- The function `long long factorial_trampoline_with_debug(int n)`: start with an empty
debug stack, `current_acc = 1`, `current_n = n`. -/
def factorial_trampoline_with_debug (n : Int) : Nat × List DebugFrame :=
  debugLoop n 1 []

/-- The function `long long factorial_cps(int n, Continuation k)`: at the base case pass 1
to the continuation; otherwise tail-call `factorial_cps(n - 1, next_k)` where
`next_k = [=](long long sub_result) { return k(n * sub_result); }` (the
multiplication wraps modulo `2 ^ 64`). -/
def factorial_cps (n : Int) (k : Nat → Nat) : Nat :=
  if n ≤ 1 then
    k 1
  else
    factorial_cps (n - 1) (fun sub_result => k (n.toNat * sub_result % WORD))
termination_by n.toNat
decreasing_by omega

/-- The same CPS recursion with an instrumented continuation: results carry the
list of multiplier values in the order the continuations fire.  The base case
records its value 1; the continuation built for countdown value `n` records `n`
when it fires (immediately before forwarding to the outer continuation). -/
def factorial_cps_inst (n : Int) (k : Nat × List Nat → Nat × List Nat) :
    Nat × List Nat :=
  if n ≤ 1 then
    k (1, [1])
  else
    factorial_cps_inst (n - 1)
      (fun p => k (n.toNat * p.1 % WORD, p.2 ++ [n.toNat]))
termination_by n.toNat
decreasing_by omega

/-- The continuations `factorial_cps` actually builds, defunctionalized: the
caller-supplied `identity` lambda, and `next_k`, which captures the current
countdown value `n` and the outer continuation `k`. -/
inductive Continuation where
  | identity : Continuation
  | next_k : Int → Continuation → Continuation
  deriving Repr, DecidableEq

/-- What each reified continuation does when invoked: `identity` returns the
result it receives; `next_k n k` computes `k(n * sub_result)` with the
multiplication wrapping modulo `2 ^ 64`. -/
def Continuation.apply : Continuation → Nat → Nat
  | .identity, final_result => final_result
  | .next_k n k, sub_result => k.apply (n.toNat * sub_result % WORD)

/-- The length of a defunctionalized continuation chain: the number of `next_k`
closures chained in front of the caller-supplied continuation. -/
def Continuation.chainLength : Continuation → Nat
  | .identity => 0
  | .next_k _ k => k.chainLength + 1

/-- The continuation chain that has been built at the moment the base case of
`factorial_cps` fires, starting from countdown value `n` and caller-supplied
continuation `k`: one `next_k` layer is added per non-base-case step. -/
def cps_chain (n : Int) (k : Continuation) : Continuation :=
  if n ≤ 1 then
    k
  else
    cps_chain (n - 1) (.next_k n k)
termination_by n.toNat
decreasing_by omega

/-! ### Helper lemmas -/

/-- The trampoline from countdown value `n` applies the transition
`max (n - 1) 0` times. -/
theorem trampolineSteps_eq (n : Int) : trampolineSteps n = (n - 1).toNat := by
  unfold trampolineSteps
  split
  · omega
  · rw [trampolineSteps_eq (n - 1)]
    omega
termination_by n.toNat
decreasing_by omega

/-- The tail-recursive helper and the trampoline loop are the same recursion. -/
theorem factorial_helper_eq_loop (n : Int) (acc : Nat) :
    factorial_helper n acc = trampolineLoop { n := n, accumulator := acc } := by
  unfold factorial_helper trampolineLoop
  split
  · rfl
  · exact factorial_helper_eq_loop (n - 1) (acc * n.toNat % WORD)
termination_by n.toNat
decreasing_by omega

/-- A countdown value at most 1 has factorial 1 (its `toNat` is 0 or 1). -/
theorem toNat_factorial_of_le_one (n : Int) (h : n ≤ 1) : n.toNat.factorial = 1 := by
  have : n.toNat = 0 ∨ n.toNat = 1 := by omega
  rcases this with h1 | h1 <;> simp [h1]

/-- Main loop lemma: from state `{n, acc % WORD}` the trampoline loop returns
`acc * n! % WORD` (with `n!` read through `Int.toNat`). -/
theorem trampolineLoop_eq (n : Int) (acc : Nat) :
    trampolineLoop { n := n, accumulator := acc % WORD } =
      acc * n.toNat.factorial % WORD := by
  unfold trampolineLoop
  split
  · rename_i h
    rw [toNat_factorial_of_le_one n (by exact_mod_cast h), Nat.mul_one]
  · rename_i h
    have hn : ¬ n ≤ 1 := h
    rw [Nat.mod_mul_mod, trampolineLoop_eq (n - 1) (acc * n.toNat)]
    have h2 : (n - 1).toNat = n.toNat - 1 := by omega
    have h3 : n.toNat = (n.toNat - 1) + 1 := by omega
    rw [h2]
    conv_rhs => rw [h3, Nat.factorial_succ, ← h3]
    rw [Nat.mul_assoc]
termination_by n.toNat
decreasing_by omega

/-- Reducing the seed accumulator: `1 % WORD = 1`. -/
theorem one_mod_WORD : (1 : Nat) % WORD = 1 :=
  Nat.mod_eq_of_lt (by norm_num [WORD])

/-- Closed form of the trampoline: `n! mod 2^64` (for `n ≤ 0` this is 1, since
`Int.toNat` sends nonpositive values to 0). -/
theorem factorial_trampoline_eq (n : Int) :
    factorial_trampoline n = n.toNat.factorial % WORD := by
  unfold factorial_trampoline
  rw [show (1 : Nat) = 1 % WORD from one_mod_WORD.symm, trampolineLoop_eq n 1,
    Nat.one_mul]

/-- Closed form of the tail-recursive entry point. -/
theorem factorial_eq (n : Int) : factorial n = n.toNat.factorial % WORD := by
  unfold factorial
  rw [factorial_helper_eq_loop, ← factorial_trampoline.eq_def, factorial_trampoline_eq]

/-! ### One-step equations for the loop definitions -/

/-- Exit equation of the trampoline loop. -/
theorem trampolineLoop_base (n : Int) (acc : Nat) (h : n ≤ 1) :
    trampolineLoop { n := n, accumulator := acc } = acc := by
  unfold trampolineLoop
  simp [h]

/-- Transition equation of the trampoline loop. -/
theorem trampolineLoop_rec (n : Int) (acc : Nat) (h : ¬ n ≤ 1) :
    trampolineLoop { n := n, accumulator := acc } =
      trampolineLoop { n := n - 1, accumulator := acc * n.toNat % WORD } := by
  conv_lhs => rw [trampolineLoop.eq_def]
  simp [h]

/-- Exit equation of the iteration counter. -/
theorem trampolineSteps_base (n : Int) (h : n ≤ 1) : trampolineSteps n = 0 := by
  unfold trampolineSteps
  simp [h]

/-- Transition equation of the iteration counter. -/
theorem trampolineSteps_rec (n : Int) (h : ¬ n ≤ 1) :
    trampolineSteps n = trampolineSteps (n - 1) + 1 := by
  conv_lhs => rw [trampolineSteps.eq_def]
  simp [h]

/-- Exit equation of the debug-trace loop: the final snapshot is still pushed. -/
theorem debugLoop_base (n : Int) (acc : Nat) (stack : List DebugFrame) (h : n ≤ 1) :
    debugLoop n acc stack =
      (acc, stack ++ [{ n := n, accumulator := acc, depth := stack.length }]) := by
  unfold debugLoop
  simp [h]

/-- Transition equation of the debug-trace loop: push a snapshot, then update
the state exactly as the plain trampoline does. -/
theorem debugLoop_rec (n : Int) (acc : Nat) (stack : List DebugFrame) (h : ¬ n ≤ 1) :
    debugLoop n acc stack =
      debugLoop (n - 1) (acc * n.toNat % WORD)
        (stack ++ [{ n := n, accumulator := acc, depth := stack.length }]) := by
  conv_lhs => rw [debugLoop.eq_def]
  simp [h]

/-- Base-case equation of the CPS function: pass 1 to the continuation. -/
theorem factorial_cps_base (n : Int) (k : Nat → Nat) (h : n ≤ 1) :
    factorial_cps n k = k 1 := by
  unfold factorial_cps
  simp [h]

/-- Recursive equation of the CPS function: tail-call with `next_k`. -/
theorem factorial_cps_rec (n : Int) (k : Nat → Nat) (h : ¬ n ≤ 1) :
    factorial_cps n k =
      factorial_cps (n - 1) (fun sub_result => k (n.toNat * sub_result % WORD)) := by
  conv_lhs => rw [factorial_cps.eq_def]
  simp [h]

/-- Base-case equation of the instrumented CPS function. -/
theorem factorial_cps_inst_base (n : Int) (k : Nat × List Nat → Nat × List Nat)
    (h : n ≤ 1) : factorial_cps_inst n k = k (1, [1]) := by
  unfold factorial_cps_inst
  simp [h]

/-- Recursive equation of the instrumented CPS function. -/
theorem factorial_cps_inst_rec (n : Int) (k : Nat × List Nat → Nat × List Nat)
    (h : ¬ n ≤ 1) :
    factorial_cps_inst n k =
      factorial_cps_inst (n - 1)
        (fun p => k (n.toNat * p.1 % WORD, p.2 ++ [n.toNat])) := by
  conv_lhs => rw [factorial_cps_inst.eq_def]
  simp [h]

/-- Base-case equation of the chain construction. -/
theorem cps_chain_base (n : Int) (k : Continuation) (h : n ≤ 1) :
    cps_chain n k = k := by
  unfold cps_chain
  simp [h]

/-- Recursive equation of the chain construction. -/
theorem cps_chain_rec (n : Int) (k : Continuation) (h : ¬ n ≤ 1) :
    cps_chain n k = cps_chain (n - 1) (.next_k n k) := by
  conv_lhs => rw [cps_chain.eq_def]
  simp [h]

/-- Peeling one factor off a factorial: `m * (m - 1)! = m!` for `m ≥ 1`. -/
theorem factorial_pred (m : Nat) (hm : 1 ≤ m) :
    m * (m - 1).factorial = m.factorial := by
  obtain ⟨j, rfl⟩ : ∃ j, m = j + 1 := ⟨m - 1, by omega⟩
  simp [Nat.factorial_succ]

/-! ### The trampoline loop as iteration of `step` -/

/-- The update `step` leaves a terminal state unchanged. -/
theorem step_base (s : State) (h : s.n ≤ 1) : step s = s := by
  unfold step
  simp [h]

/-- The update `step` applies the loop's transition to a non-terminal state. -/
theorem step_rec (s : State) (h : ¬ s.n ≤ 1) :
    step s = { n := s.n - 1, accumulator := s.accumulator * s.n.toNat % WORD } := by
  unfold step
  simp [h]

/-- The trampoline loop is exactly `trampolineSteps n` iterations of the O(1)
state update `step`: iteration reaches a terminal state (`n ≤ 1`) and the loop
returns that state's accumulator. -/
theorem loop_eq_iterate (n : Int) (acc : Nat) :
    (step^[trampolineSteps n] { n := n, accumulator := acc } : State).n ≤ 1 ∧
      trampolineLoop { n := n, accumulator := acc } =
        (step^[trampolineSteps n] { n := n, accumulator := acc } : State).accumulator := by
  by_cases h : n ≤ 1
  · rw [trampolineSteps_base n h, Function.iterate_zero_apply, trampolineLoop_base n acc h]
    exact ⟨h, rfl⟩
  · have hstep : step { n := n, accumulator := acc } =
        { n := n - 1, accumulator := acc * n.toNat % WORD } := by
      unfold step
      simp [h]
    have IH := loop_eq_iterate (n - 1) (acc * n.toNat % WORD)
    rw [trampolineSteps_rec n h, Function.iterate_succ_apply, hstep,
      trampolineLoop_rec n acc h]
    exact IH
termination_by n.toNat
decreasing_by omega

/-- Loop invariant of the trampoline started at `{N, 1}` with `N ≥ 1`: after
`k ≤ trampolineSteps N` iterations the countdown is `N - k` and the accumulator
times the factorial of the remaining countdown is `N!` modulo `2 ^ 64`. -/
theorem step_iterate_invariant (N : Int) (hN : 1 ≤ N) (k : Nat)
    (hk : k ≤ trampolineSteps N) :
    (step^[k] { n := N, accumulator := 1 } : State).n = N - k ∧
      (step^[k] { n := N, accumulator := 1 } : State).accumulator *
          (N - k).toNat.factorial % WORD = N.toNat.factorial % WORD := by
  induction k with
  | zero =>
    constructor
    · simp
    · simp
  | succ k ih =>
    rw [trampolineSteps_eq] at hk
    obtain ⟨ihn, iha⟩ := ih (by rw [trampolineSteps_eq]; omega)
    have hterm : ¬ (step^[k] { n := N, accumulator := 1 } : State).n ≤ 1 := by
      rw [ihn]
      omega
    rw [Function.iterate_succ_apply', step_rec _ hterm]
    constructor
    · simp only
      rw [ihn]
      push_cast
      ring
    · simp only
      rw [ihn, Nat.mod_mul_mod,
        show (N - ((k + 1 : Nat) : Int)).toNat = (N - (k : Int)).toNat - 1 by omega,
        Nat.mul_assoc, factorial_pred _ (by omega)]
      exact iha

/-! ### Debug-trace lemmas -/

/-- The result component of the debug loop is the plain trampoline loop on the
same state: the debug stack is purely observational. -/
theorem debugLoop_fst (n : Int) (acc : Nat) (stack : List DebugFrame) :
    (debugLoop n acc stack).1 = trampolineLoop { n := n, accumulator := acc } := by
  by_cases h : n ≤ 1
  · rw [debugLoop_base n acc stack h, trampolineLoop_base n acc h]
  · rw [debugLoop_rec n acc stack h, trampolineLoop_rec n acc h]
    exact debugLoop_fst (n - 1) (acc * n.toNat % WORD) _
termination_by n.toNat
decreasing_by omega

/-- The depth fields of the debug stack built by the debug loop: starting from
`stack`, the loop appends exactly `trampolineSteps n + 1` snapshots whose depth
fields continue counting from `stack.length`. -/
theorem debugLoop_map_depth (n : Int) (acc : Nat) (stack : List DebugFrame) :
    (debugLoop n acc stack).2.map DebugFrame.depth =
      stack.map DebugFrame.depth ++
        List.range' stack.length (trampolineSteps n + 1) := by
  by_cases h : n ≤ 1
  · rw [debugLoop_base n acc stack h, trampolineSteps_base n h]
    simp
  · have IH := debugLoop_map_depth (n - 1) (acc * n.toNat % WORD)
      (stack ++ [{ n := n, accumulator := acc, depth := stack.length }])
    rw [debugLoop_rec n acc stack h, trampolineSteps_rec n h, IH]
    simp [List.range'_succ]
termination_by n.toNat
decreasing_by omega

/-! ### CPS lemmas -/

/-- Evaluation of the CPS function for `n ≥ 1`: it passes `n! mod 2^64` to the
caller-supplied continuation. -/
theorem factorial_cps_eval (n : Int) (k : Nat → Nat) (h : 1 ≤ n) :
    factorial_cps n k = k (n.toNat.factorial % WORD) := by
  by_cases h1 : n ≤ 1
  · have hn : n = 1 := le_antisymm h1 h
    subst hn
    rw [factorial_cps_base _ _ le_rfl]
    norm_num [WORD]
  · rw [factorial_cps_rec _ _ h1, factorial_cps_eval (n - 1) _ (by omega),
      Nat.mul_mod_mod, show (n - 1).toNat = n.toNat - 1 by omega,
      factorial_pred _ (by omega)]
termination_by n.toNat
decreasing_by omega

/-- Evaluation of the instrumented CPS function for `n ≥ 1`: the continuation
receives `n! mod 2^64` together with the multiplier log `[1, 2, ..., n]` in
firing order. -/
theorem factorial_cps_inst_eval (n : Int) (k : Nat × List Nat → Nat × List Nat)
    (h : 1 ≤ n) :
    factorial_cps_inst n k =
      k (n.toNat.factorial % WORD, (List.range n.toNat).map (fun i => i + 1)) := by
  by_cases h1 : n ≤ 1
  · have hn : n = 1 := le_antisymm h1 h
    subst hn
    rw [factorial_cps_inst_base _ _ le_rfl]
    congr 1
  · rw [factorial_cps_inst_rec _ _ h1,
      factorial_cps_inst_eval (n - 1) _ (by omega)]
    have e1 : n.toNat * ((n - 1).toNat.factorial % WORD) % WORD =
        n.toNat.factorial % WORD := by
      rw [Nat.mul_mod_mod, show (n - 1).toNat = n.toNat - 1 by omega,
        factorial_pred _ (by omega)]
    have h3 : n.toNat = (n.toNat - 1) + 1 := by omega
    have e2 : (List.range (n - 1).toNat).map (fun i => i + 1) ++ [n.toNat] =
        (List.range n.toNat).map (fun i => i + 1) := by
      conv_rhs => rw [h3, List.range_succ]
      rw [List.map_append, show (n - 1).toNat = n.toNat - 1 by omega]
      simp only [List.map_cons, List.map_nil]
      rw [← h3]
    rw [e1, e2]
termination_by n.toNat
decreasing_by omega

/-- The chain built by `cps_chain` adds one `next_k` closure per transition
step on top of the caller-supplied continuation. -/
theorem cps_chain_length (n : Int) (k : Continuation) :
    (cps_chain n k).chainLength = trampolineSteps n + k.chainLength := by
  by_cases h : n ≤ 1
  · rw [cps_chain_base _ _ h, trampolineSteps_base _ h, Nat.zero_add]
  · rw [cps_chain_rec _ _ h, cps_chain_length (n - 1) _, trampolineSteps_rec _ h]
    simp only [Continuation.chainLength]
    omega
termination_by n.toNat
decreasing_by omega

/-- The defunctionalized chain is faithful: running `factorial_cps` with the
reified continuation `k` is the same as invoking, at the base case, the chain
built by `cps_chain` on the base result 1. -/
theorem factorial_cps_defunct (n : Int) (k : Continuation) :
    factorial_cps n k.apply = (cps_chain n k).apply 1 := by
  by_cases h : n ≤ 1
  · rw [factorial_cps_base _ _ h, cps_chain_base _ _ h]
  · rw [factorial_cps_rec _ _ h, cps_chain_rec _ _ h,
      ← factorial_cps_defunct (n - 1) (.next_k n k)]
    rfl
termination_by n.toNat
decreasing_by omega

/-! ### Claims -/

/-- C1: for every input `n ≥ 1`, the trampoline engine with the factorial
transition, termination predicate `n ≤ 1` and accumulator extraction — as
implemented by `factorial_trampoline` and equivalently by
`factorial_helper(n, 1)` — returns the mathematical factorial `n!` reduced
modulo `2 ^ 64`, the fixed-width wraparound of the unbounded-precision
factorial. -/
theorem claim_C1_trampoline_computes_factorial_mod (n : Int) (h : 1 ≤ n) :
    factorial_trampoline n = n.toNat.factorial % WORD ∧
      factorial_helper n 1 = n.toNat.factorial % WORD := by
  refine ⟨factorial_trampoline_eq n, ?_⟩
  rw [factorial_helper_eq_loop n 1]
  exact factorial_trampoline_eq n

/-- Witness for C1 at `n = 5`: both entry points return `120 = 5! mod 2 ^ 64`. -/
theorem claim_C1_witness :
    factorial_trampoline 5 = 120 ∧ factorial_helper 5 1 = 120 := by
  obtain ⟨h1, h2⟩ := claim_C1_trampoline_computes_factorial_mod 5 (by norm_num)
  constructor
  · rw [h1]; decide
  · rw [h2]; decide

/-- C2: the trampoline's run loop consumes no call stack growing with `n`: for
every input `n` the whole computation of `factorial_trampoline n` is the
`k`-fold iteration of the single O(1) state-update function `step` on one
`State` value, terminating (reaching the exit condition `n ≤ 1`) after finitely
many iterations and returning that final state's accumulator — the shallow
formalization of a constant-stack, never-abnormally-terminating loop. -/
theorem claim_C2_constant_stack_iteration (n : Int) :
    ∃ k : Nat, (step^[k] { n := n, accumulator := 1 } : State).n ≤ 1 ∧
      factorial_trampoline n =
        (step^[k] { n := n, accumulator := 1 } : State).accumulator :=
  ⟨trampolineSteps n, (loop_eq_iterate n 1).1, (loop_eq_iterate n 1).2⟩

/-- C3: the continuation-passing implementation and the trampoline compute the
same value at 5: `factorial_cps(5, identity)` and `factorial_trampoline(5)`
both return 120. -/
theorem claim_C3_cps_equals_trampoline_at_five :
    factorial_cps 5 (fun final_result => final_result) = 120 ∧
      factorial_trampoline 5 = 120 := by
  constructor
  · rw [factorial_cps_eval 5 _ (by norm_num)]
    decide
  · rw [factorial_trampoline_eq]
    decide

/-- C4: in the CPS variant, for every starting `n ≥ 1`, the base case's
continuation fires first and thereafter the continuations fire in reverse
order of construction: instrumenting each continuation to record its
multiplier as it fires yields the log `[1, 2, ..., n]` (base case first, the
continuation built for the largest pending multiplication last), alongside the
reconstructed result `n! mod 2 ^ 64`. -/
theorem claim_C4_cps_firing_order (n : Int) (h : 1 ≤ n) :
    factorial_cps_inst n (fun p => p) =
      (n.toNat.factorial % WORD, (List.range n.toNat).map (fun i => i + 1)) :=
  factorial_cps_inst_eval n (fun p => p) h

/-- Witness for C4 at `n = 5`: the instrumented continuation records the
multiplication order `[1, 2, 3, 4, 5]` reconstructing 120. -/
theorem claim_C4_witness :
    factorial_cps_inst 5 (fun p => p) = (120, [1, 2, 3, 4, 5]) := by
  rw [claim_C4_cps_firing_order 5 (by norm_num)]
  decide

/-- C5: in the debug-trace trampoline, for every input, the trace length at
termination equals the number of transition applications plus one (the initial
state is recorded too), and each appended snapshot's depth field equals the
0-based count of snapshots appended before it. -/
theorem claim_C5_trace_length_and_depths (n : Int) :
    (factorial_trampoline_with_debug n).2.length = trampolineSteps n + 1 ∧
      (factorial_trampoline_with_debug n).2.map DebugFrame.depth =
        List.range (trampolineSteps n + 1) := by
  unfold factorial_trampoline_with_debug
  have hm := debugLoop_map_depth n 1 []
  simp only [List.map_nil, List.nil_append, List.length_nil] at hm
  constructor
  · have hl := congrArg List.length hm
    simpa [List.length_map, List.length_range'] using hl
  · rw [hm, List.range_eq_range']

/-- C6: the debug trace is purely observational: for every input `n` the
result returned by `factorial_trampoline_with_debug` equals the result of the
plain `factorial_trampoline`. -/
theorem claim_C6_trace_observational (n : Int) :
    (factorial_trampoline_with_debug n).1 = factorial_trampoline n :=
  debugLoop_fst n 1 []

/-- C7: for inputs `n = 1` and `n = 0` the engine terminates immediately at
the base case with result 1 (the identity value), applying the transition zero
times (which is within "zero or one"), and the debug-trace variant records a
trace of length 1. -/
theorem claim_C7_base_case_boundary :
    factorial_trampoline 1 = 1 ∧ factorial_trampoline 0 = 1 ∧
      factorial 1 = 1 ∧ factorial 0 = 1 ∧
      trampolineSteps 1 = 0 ∧ trampolineSteps 0 = 0 ∧
      (factorial_trampoline_with_debug 1).2.length = 1 ∧
      (factorial_trampoline_with_debug 0).2.length = 1 := by
  refine ⟨?_, ?_, ?_, ?_, ?_, ?_, ?_, ?_⟩
  · rw [factorial_trampoline_eq]; decide
  · rw [factorial_trampoline_eq]; decide
  · rw [factorial_eq]; decide
  · rw [factorial_eq]; decide
  · rw [trampolineSteps_eq]; decide
  · rw [trampolineSteps_eq]; decide
  · unfold factorial_trampoline_with_debug
    rw [debugLoop_base 1 1 [] (by norm_num)]
    rfl
  · unfold factorial_trampoline_with_debug
    rw [debugLoop_base 0 1 [] (by norm_num)]
    rfl

/-- C8: in the CPS variant, for every starting `n`, the length of the
continuation chain built before the base case fires equals the number of
transition steps taken: one `next_k` is constructed per non-base-case step,
chained onto the caller-supplied continuation, and running `factorial_cps`
with the reified identity continuation is the same as invoking that chain on
the base result 1. -/
theorem claim_C8_chain_length_eq_steps (n : Int) :
    (cps_chain n Continuation.identity).chainLength = trampolineSteps n ∧
      factorial_cps n (Continuation.identity).apply =
        (cps_chain n Continuation.identity).apply 1 := by
  refine ⟨?_, factorial_cps_defunct n Continuation.identity⟩
  rw [cps_chain_length n Continuation.identity]
  simp [Continuation.chainLength]

/-- C9: for every integer input `n ≤ 1`, including all negative `n`, both
`factorial_trampoline` and `factorial` (the public entry via
`factorial_helper(n, 1)`) return 1 immediately, with zero transition
applications; both functions are total on every integer input. -/
theorem claim_C9_nonpositive_inputs (n : Int) (h : n ≤ 1) :
    factorial_trampoline n = 1 ∧ factorial n = 1 ∧ trampolineSteps n = 0 := by
  refine ⟨?_, ?_, trampolineSteps_base n h⟩
  · rw [factorial_trampoline_eq, toNat_factorial_of_le_one n h]
    exact one_mod_WORD
  · rw [factorial_eq, toNat_factorial_of_le_one n h]
    exact one_mod_WORD

/-- Witness for C9 at the negative input `n = -3`. -/
theorem claim_C9_witness :
    factorial_trampoline (-3) = 1 ∧ factorial (-3) = 1 ∧
      trampolineSteps (-3) = 0 :=
  claim_C9_nonpositive_inputs (-3) (by norm_num)

/-- C10: the trampoline loop started at `{N, 1}` with `N ≥ 1` maintains, at
the start of every iteration (after each `k ≤ trampolineSteps N` applications
of `step`), the invariant that the current countdown is at least 1 and
`accumulator * (current n)! ≡ N! (mod 2 ^ 64)`; with the exit condition
`n ≤ 1`, this yields the final result. -/
theorem claim_C10_loop_invariant (N : Int) (hN : 1 ≤ N) (k : Nat)
    (hk : k ≤ trampolineSteps N) :
    1 ≤ (step^[k] { n := N, accumulator := 1 } : State).n ∧
      (step^[k] { n := N, accumulator := 1 } : State).accumulator *
          (step^[k] { n := N, accumulator := 1 } : State).n.toNat.factorial %
          WORD = N.toNat.factorial % WORD := by
  obtain ⟨hn, ha⟩ := step_iterate_invariant N hN k hk
  rw [trampolineSteps_eq] at hk
  refine ⟨?_, ?_⟩
  · rw [hn]
    omega
  · rw [hn]
    exact ha

/-- Witness for C10 at `N = 5`, `k = 2`: after two iterations the invariant
holds concretely. -/
theorem claim_C10_witness :
    1 ≤ (step^[2] { n := 5, accumulator := 1 } : State).n ∧
      (step^[2] { n := 5, accumulator := 1 } : State).accumulator *
          (step^[2] { n := 5, accumulator := 1 } : State).n.toNat.factorial %
          WORD = ((5 : Int)).toNat.factorial % WORD :=
  claim_C10_loop_invariant 5 (by norm_num) 2
    (by rw [trampolineSteps_eq]; decide)
